import Mathlib

/-!
Shallow embedding of the inventory HTTP service (src/index.js). The source
holds two backends behind the same HTTP surface: a file-backed variant that
keeps the whole collection as a JSON array and rewrites it after every
mutation, and a MySQL-backed variant with an auto-increment integer key.
Each handler becomes a pure function from the persisted state (plus the
request fields) to the response and the new persisted state. Optional form
or JSON body fields are `Option String` (none = the key was absent);
JavaScript truthiness of a string value is modelled explicitly.
-/

/-- One inventory record as stored by the file backend (element of the
JSON array in inventory.json). `photo` is the multer-assigned filename,
or none when the record was created without a photo (stored as null). -/
structure Item where
  id : String
  inventory_name : String
  description : String
  photo : Option String
deriving DecidableEq

/-- One row of the MySQL `inventory` table. -/
structure Row where
  id : Nat
  inventory_name : String
  description : String
  photo : Option String
deriving DecidableEq

/-- The MySQL table state: the current rows in insertion order plus the
auto-increment counter that assigns the next id. -/
structure MyTable where
  rows : List Row
  nextId : Nat
deriving DecidableEq

/-- JavaScript truthiness of an optional string body field: `undefined`
(the key was absent) and the empty string are falsy. -/
def strFalsy : Option String → Bool
  | none => true
  | some s => s == ""

/-- JavaScript `v || dflt` where `v` is a string-or-undefined value. -/
def jsOr (v : Option String) (dflt : String) : String :=
  match v with
  | none => dflt
  | some s => if s == "" then dflt else s

/-- JavaScript `s.trim()`: strips whitespace from both ends of the
string (modelled over the character list so it evaluates by kernel
reduction). -/
def jsTrim (s : String) : String :=
  ⟨((s.data.dropWhile Char.isWhitespace).reverse.dropWhile Char.isWhitespace).reverse⟩

/-- JavaScript truthiness of a stored photo field (`item.photo`):
null and the empty string are falsy. -/
def truthyPhoto : Option String → Bool
  | none => false
  | some s => !(s == "")

/-- `db.find(x => x.id === id)` / `db.findIndex(...)` on the file db:
the first item whose id matches. -/
def findItem : List Item → String → Option Item
  | [], _ => none
  | x :: xs, i => if x.id = i then some x else findItem xs i

/-- Mutation of the element found by `findIndex` (`db[idx] = ...`):
rewrites the first matching element, leaving the rest untouched. -/
def updateAt : List Item → String → (Item → Item) → List Item
  | [], _, _ => []
  | x :: xs, i, f => if x.id = i then f x :: xs else x :: updateAt xs i f

/-- `db.splice(idx, 1)` after `findIndex`: removes the first matching
element. -/
def deleteFirst : List Item → String → List Item
  | [], _ => []
  | x :: xs, i => if x.id = i then xs else x :: deleteFirst xs i

/-- POST /register (file backend). `now` is the value Date.now() returned
during this call; the new id is its decimal string. Validation rejects a
missing, empty or whitespace-only inventory_name with 400 and persists
nothing; otherwise the item (description defaulted to "" via `|| ""`,
photo from the uploaded file's name or null) is appended and returned
with 201. -/
def registerFile (db : List Item) (now : Nat) (name? desc? file? : Option String) :
    (Nat × Option Item) × List Item :=
  if strFalsy name? || jsTrim (name?.getD "") == "" then
    ((400, none), db)
  else
    let newItem : Item :=
      { id := toString now
        inventory_name := name?.getD ""
        description := jsOr desc? ""
        photo := file? }
    ((201, some newItem), db ++ [newItem])

/-- GET /inventory (file backend): 200 with the whole stored array. -/
def listFile (db : List Item) : Nat × List Item := (200, db)

/-- GET /inventory/:id (file backend): 404 when no item matches, else 200
with the item. -/
def getInventoryFile (db : List Item) (i : String) : Nat × Option Item :=
  match findItem db i with
  | none => (404, none)
  | some it => (200, some it)

/-- The field assignments of PUT /inventory/:id (file backend): a field is
written iff its key was present in the JSON body (strict !== undefined
tests), so an explicitly supplied empty string is written. -/
def applyUpd (name? desc? : Option String) (x : Item) : Item :=
  let x1 := match name? with
    | some n => { x with inventory_name := n }
    | none => x
  match desc? with
  | some d => { x1 with description := d }
  | none => x1

/-- PUT /inventory/:id (file backend). 404 when the id is unknown; 400 when
both body fields are falsy (absent or empty string); otherwise the present
fields are written in place, the db is saved, and the updated item is
returned with 200. -/
def updateFile (db : List Item) (i : String) (name? desc? : Option String) :
    (Nat × Option Item) × List Item :=
  match findItem db i with
  | none => ((404, none), db)
  | some it =>
    if strFalsy name? && strFalsy desc? then
      ((400, none), db)
    else
      ((200, some (applyUpd name? desc? it)), updateAt db i (applyUpd name? desc?))

/-- GET /inventory/:id/photo (file backend). 404 when no item matches, when
the item's photo field is falsy, or when the referenced file is missing
from the photos directory; otherwise 200 with the file's bytes. The photo
store is the photos directory: filename to file bytes. -/
def getPhotoFile (db : List Item) (store : String → Option (List Nat)) (i : String) :
    Nat × Option (List Nat) :=
  match findItem db i with
  | none => (404, none)
  | some it =>
    if truthyPhoto it.photo then
      match store (it.photo.getD "") with
      | none => (404, none)
      | some b => (200, some b)
    else (404, none)

/-- PUT /inventory/:id/photo (file backend): 404 when the id is unknown,
then 400 when no file was uploaded, else the photo field is overwritten
with the uploaded file's name. -/
def setPhotoFile (db : List Item) (i : String) (file? : Option String) :
    (Nat × Option String) × List Item :=
  match findItem db i with
  | none => ((404, none), db)
  | some _ =>
    match file? with
    | none => ((400, none), db)
    | some f =>
      ((200, some "Photo updated"), updateAt db i (fun x => { x with photo := some f }))

/-- POST /search (file backend): loads the db fresh, finds the item, and
when includePhoto is truthy appends the photo-path line to the in-memory
copy's description before responding; saveDB is never called, so the
persisted state is returned unchanged. -/
def searchFile (db : List Item) (i : String) (includePhoto : Option String) :
    (Nat × Option Item) × List Item :=
  match findItem db i with
  | none => ((404, none), db)
  | some it =>
    let resp :=
      if strFalsy includePhoto then it
      else { it with description := it.description ++ "\nPhoto: /inventory/" ++ i ++ "/photo" }
    ((200, some resp), db)

/-- DELETE /inventory/:id (file backend): 404 when the id is unknown, else
the first matching element is spliced out and the db saved. -/
def deleteFile (db : List Item) (i : String) : (Nat × Option String) × List Item :=
  match findItem db i with
  | none => ((404, none), db)
  | some _ => ((200, some ("Item with id " ++ i ++ " deleted")), deleteFirst db i)

/-- `SELECT * FROM inventory WHERE id = ?` followed by `rows[0]`: the first
row whose id matches. -/
def findRow : List Row → Nat → Option Row
  | [], _ => none
  | r :: rs, i => if r.id = i then some r else findRow rs i

/-- The response object built by POST /register (MySQL backend): it reuses
the raw body `description` (absent when the form omitted it), unlike the
inserted row whose description is defaulted with `|| ""`. -/
structure MysqlCreateResponse where
  id : Nat
  inventory_name : String
  description : Option String
  photo : Option String
deriving DecidableEq

/-- POST /register (MySQL backend). Validation only tests `!inventory_name`
(no trim), so a whitespace-only name passes. On success the INSERT stores
the row with description defaulted to "" and the auto-increment id, and
the 201 response echoes the raw body description. -/
def registerMysql (t : MyTable) (name? desc? file? : Option String) :
    (Nat × Option MysqlCreateResponse) × MyTable :=
  if strFalsy name? then
    ((400, none), t)
  else
    let row : Row :=
      { id := t.nextId
        inventory_name := name?.getD ""
        description := jsOr desc? ""
        photo := file? }
    ((201, some { id := t.nextId
                  inventory_name := name?.getD ""
                  description := desc?
                  photo := file? }),
     { rows := t.rows ++ [row], nextId := t.nextId + 1 })

/-- GET /inventory (MySQL backend): `SELECT * FROM inventory`, all rows. -/
def listMysql (t : MyTable) : Nat × List Row := (200, t.rows)

/-- GET /inventory/:id (MySQL backend). -/
def getInventoryMysql (t : MyTable) (i : Nat) : Nat × Option Row :=
  match findRow t.rows i with
  | none => (404, none)
  | some r => (200, some r)

/-- PUT /inventory/:id (MySQL backend): after the existence SELECT, runs
`UPDATE inventory SET inventory_name = ?, description = ?` where each value
falls back to the previously selected row's value under JS `||` (so an
absent OR empty-string field keeps the old value). There is no
no-fields validation: an empty body still answers 200 "Updated". -/
def updateMysql (t : MyTable) (i : Nat) (name? desc? : Option String) :
    (Nat × Option String) × MyTable :=
  match findRow t.rows i with
  | none => ((404, none), t)
  | some row =>
    let newName := jsOr name? row.inventory_name
    let newDesc := jsOr desc? row.description
    ((200, some "Updated"),
     { t with rows := t.rows.map (fun r =>
         if r.id = i then { r with inventory_name := newName, description := newDesc }
         else r) })

/-- GET /inventory/:id/photo (MySQL backend): 404 when no row, the photo
column is falsy, or the file is missing; else 200 with the bytes. -/
def getPhotoMysql (t : MyTable) (store : String → Option (List Nat)) (i : Nat) :
    Nat × Option (List Nat) :=
  match findRow t.rows i with
  | none => (404, none)
  | some r =>
    if truthyPhoto r.photo then
      match store (r.photo.getD "") with
      | none => (404, none)
      | some b => (200, some b)
    else (404, none)

/-- PUT /inventory/:id/photo (MySQL backend): the missing-file 400 check
comes before the SELECT; on success the photo column is overwritten. -/
def setPhotoMysql (t : MyTable) (i : Nat) (file? : Option String) :
    (Nat × Option String) × MyTable :=
  match file? with
  | none => ((400, none), t)
  | some f =>
    match findRow t.rows i with
    | none => ((404, none), t)
    | some _ =>
      ((200, some "Photo updated"),
       { t with rows := t.rows.map (fun r =>
           if r.id = i then { r with photo := some f } else r) })

/-- `DELETE FROM inventory WHERE id = ?`: removes every matching row. -/
def removeRows : List Row → Nat → List Row
  | [], _ => []
  | r :: rs, i => if r.id = i then removeRows rs i else r :: removeRows rs i

/-- DELETE /inventory/:id (MySQL backend): 404 when the existence SELECT
finds nothing, else the row is deleted. -/
def deleteMysql (t : MyTable) (i : Nat) : (Nat × Option String) × MyTable :=
  match findRow t.rows i with
  | none => ((404, none), t)
  | some _ => ((200, some "Deleted"), { t with rows := removeRows t.rows i })

/-- One create request against the file backend: the Date.now() value
observed during the call and the submitted inventory_name. -/
structure CreateReq where
  now : Nat
  name : String
deriving DecidableEq

/-- The item a valid file-backend create request produces (no description,
no photo). -/
def mkFileItem (r : CreateReq) : Item :=
  { id := toString r.now, inventory_name := r.name, description := "", photo := none }

/-- A sequence of POST /register calls against the file backend, threading
the persisted state. -/
def runCreatesFile : List Item → List CreateReq → List Item
  | db, [] => db
  | db, r :: rs => runCreatesFile (registerFile db r.now (some r.name) none none).2 rs

/-- A sequence of POST /register calls against the MySQL backend (each
element is the submitted inventory_name field, none when absent). -/
def runCreatesMysql : MyTable → List (Option String) → MyTable
  | t, [] => t
  | t, n :: ns => runCreatesMysql (registerMysql t n none none).2 ns

/-- The row a valid MySQL-backend create with name `n` stores when the
auto-increment counter is at `k`. -/
def mkRow (k : Nat) (n : String) : Row :=
  { id := k, inventory_name := n, description := "", photo := none }

/-- The rows a run of valid MySQL-backend creates appends, starting from
auto-increment counter `k`. -/
def expectedRows (k : Nat) : List String → List Row
  | [] => []
  | n :: ns => mkRow k n :: expectedRows (k + 1) ns

/-! ### Helper lemmas about the list primitives -/

theorem findItem_eq_none (db : List Item) (i : String) (h : i ∉ db.map Item.id) :
    findItem db i = none := by
  induction db with
  | nil => rfl
  | cons x xs ih =>
    rw [List.map_cons, List.mem_cons, not_or] at h
    rw [findItem, if_neg fun hx => h.1 hx.symm]
    exact ih h.2

theorem findItem_deleteFirst (db : List Item) (i : String)
    (hnd : (db.map Item.id).Nodup) : findItem (deleteFirst db i) i = none := by
  induction db with
  | nil => rfl
  | cons x xs ih =>
    rw [List.map_cons, List.nodup_cons] at hnd
    by_cases hx : x.id = i
    · rw [deleteFirst, if_pos hx]
      exact findItem_eq_none xs i (hx ▸ hnd.1)
    · rw [deleteFirst, if_neg hx, findItem, if_neg hx]
      exact ih hnd.2

theorem findRow_removeRows (rows : List Row) (j : Nat) :
    findRow (removeRows rows j) j = none := by
  induction rows with
  | nil => rfl
  | cons r rs ih =>
    by_cases h : r.id = j
    · rw [removeRows, if_pos h]; exact ih
    · rw [removeRows, if_neg h, findRow, if_neg h]; exact ih

theorem deleteFirst_subset (db : List Item) (i : String) :
    ∀ x ∈ deleteFirst db i, x ∈ db := by
  induction db with
  | nil => intro x hx; cases hx
  | cons y ys ih =>
    intro x hx
    by_cases hy : y.id = i
    · rw [deleteFirst, if_pos hy] at hx
      exact List.mem_cons_of_mem _ hx
    · rw [deleteFirst, if_neg hy] at hx
      rcases List.mem_cons.mp hx with h | h
      · exact h ▸ List.mem_cons_self y ys
      · exact List.mem_cons_of_mem _ (ih x h)

theorem findItem_updateAt (db : List Item) (i : String) (f : Item → Item)
    (hf : ∀ x, (f x).id = x.id) :
    findItem (updateAt db i f) i = (findItem db i).map f := by
  induction db with
  | nil => rfl
  | cons x xs ih =>
    by_cases hx : x.id = i
    · rw [updateAt, if_pos hx, findItem, if_pos (show (f x).id = i by rw [hf]; exact hx),
        findItem, if_pos hx]
      rfl
    · rw [updateAt, if_neg hx, findItem, if_neg hx, findItem, if_neg hx]
      exact ih

theorem mem_updateAt_of_ne (db : List Item) (i : String) (f : Item → Item)
    (x : Item) (hx : x ∈ db) (hne : x.id ≠ i) : x ∈ updateAt db i f := by
  induction db with
  | nil => cases hx
  | cons y ys ih =>
    rcases List.mem_cons.mp hx with h | h
    · subst h
      rw [updateAt, if_neg hne]
      exact List.mem_cons_self x (updateAt ys i f)
    · by_cases hy : y.id = i
      · rw [updateAt, if_pos hy]
        exact List.mem_cons_of_mem _ h
      · rw [updateAt, if_neg hy]
        exact List.mem_cons_of_mem _ (ih h)

theorem updateAt_pres (P : Item → Prop) (db : List Item) (i : String) (f : Item → Item)
    (hf : ∀ x, P x → P (f x)) (hdb : ∀ x ∈ db, P x) :
    ∀ x ∈ updateAt db i f, P x := by
  induction db with
  | nil => intro x hx; cases hx
  | cons y ys ih =>
    intro x hx
    by_cases hy : y.id = i
    · rw [updateAt, if_pos hy] at hx
      rcases List.mem_cons.mp hx with h | h
      · exact h ▸ hf y (hdb y (List.mem_cons_self y ys))
      · exact hdb x (List.mem_cons_of_mem _ h)
    · rw [updateAt, if_neg hy] at hx
      rcases List.mem_cons.mp hx with h | h
      · exact h ▸ hdb y (List.mem_cons_self y ys)
      · exact ih (fun z hz => hdb z (List.mem_cons_of_mem _ hz)) x h

/-! ### Helper lemmas about validation and create sequences -/

theorem jsTrim_empty : jsTrim "" = "" := rfl

theorem jsOr_of_falsy (v : Option String) (d : String) (h : strFalsy v = true) :
    jsOr v d = d := by
  cases v with
  | none => rfl
  | some s =>
    rw [strFalsy] at h
    rw [jsOr, if_pos h]

theorem registerFile_invalid (db : List Item) (now : Nat)
    (name? desc? file? : Option String)
    (h : strFalsy name? = true ∨ jsTrim (name?.getD "") = "") :
    registerFile db now name? desc? file? = ((400, none), db) := by
  have hc : (strFalsy name? || jsTrim (name?.getD "") == "") = true := by
    rcases h with h | h
    · rw [h, Bool.true_or]
    · rw [h]
      simp
  rw [registerFile, if_pos hc]

theorem registerFile_valid (db : List Item) (now : Nat) (name : String)
    (desc? file? : Option String) (h : jsTrim name ≠ "") :
    registerFile db now (some name) desc? file? =
      ((201, some ⟨toString now, name, jsOr desc? "", file?⟩),
       db ++ [⟨toString now, name, jsOr desc? "", file?⟩]) := by
  have hne : name ≠ "" := fun h0 => h (h0 ▸ jsTrim_empty)
  have hc : (strFalsy (some name) || jsTrim ((some name).getD "") == "") = false := by
    rw [strFalsy, Option.getD_some]
    simp [hne, h]
  rw [registerFile, if_neg (by rw [hc]; exact Bool.false_ne_true)]
  rfl

theorem runCreatesFile_eq (reqs : List CreateReq) :
    ∀ db : List Item, (∀ r ∈ reqs, jsTrim r.name ≠ "") →
      runCreatesFile db reqs = db ++ reqs.map mkFileItem := by
  induction reqs with
  | nil => intro db _; rw [runCreatesFile, List.map_nil, List.append_nil]
  | cons r rs ih =>
    intro db h
    have hr : jsTrim r.name ≠ "" := h r (List.mem_cons_self r rs)
    rw [runCreatesFile, registerFile_valid db r.now r.name none none hr]
    rw [ih _ (fun q hq => h q (List.mem_cons_of_mem _ hq))]
    rw [List.map_cons, List.append_assoc]
    rfl

theorem registerMysql_inv (t : MyTable) (n d f : Option String)
    (h : (∀ r ∈ t.rows, r.id < t.nextId) ∧ (t.rows.map Row.id).Nodup) :
    (∀ r ∈ (registerMysql t n d f).2.rows, r.id < (registerMysql t n d f).2.nextId) ∧
      ((registerMysql t n d f).2.rows.map Row.id).Nodup := by
  by_cases hn : strFalsy n = true
  · rw [registerMysql, if_pos hn]
    exact h
  · rw [registerMysql, if_neg hn]
    constructor
    · intro r hr
      rcases List.mem_append.mp hr with hr | hr
      · exact Nat.lt_succ_of_lt (h.1 r hr)
      · rcases List.mem_singleton.mp hr with rfl
        exact Nat.lt_succ_self t.nextId
    · rw [List.map_append, List.nodup_append]
      refine ⟨h.2, List.nodup_singleton _, ?_⟩
      intro a ha hb
      rcases List.mem_map.mp hb with ⟨r, hr, rfl⟩
      rcases List.mem_singleton.mp hr with rfl
      rcases List.mem_map.mp ha with ⟨q, hq, hqa⟩
      exact absurd hqa (Nat.ne_of_lt (h.1 q hq))

theorem runCreatesMysql_inv (ns : List (Option String)) :
    ∀ t : MyTable, (∀ r ∈ t.rows, r.id < t.nextId) → (t.rows.map Row.id).Nodup →
      ((runCreatesMysql t ns).rows.map Row.id).Nodup := by
  induction ns with
  | nil => intro t _ h2; exact h2
  | cons n ns ih =>
    intro t h1 h2
    rw [runCreatesMysql]
    exact ih _ (registerMysql_inv t n none none ⟨h1, h2⟩).1
      (registerMysql_inv t n none none ⟨h1, h2⟩).2

theorem registerMysql_valid (t : MyTable) (n : String) (desc? file? : Option String)
    (h : n ≠ "") :
    registerMysql t (some n) desc? file? =
      ((201, some ⟨t.nextId, n, desc?, file?⟩),
       ⟨t.rows ++ [⟨t.nextId, n, jsOr desc? "", file?⟩], t.nextId + 1⟩) := by
  have hc : strFalsy (some n) = false := by
    rw [strFalsy]
    simp [h]
  rw [registerMysql, if_neg (by rw [hc]; exact Bool.false_ne_true)]
  rfl

theorem runCreatesMysql_rows (names : List String) :
    ∀ (rows : List Row) (k : Nat), (∀ n ∈ names, n ≠ "") →
      (runCreatesMysql ⟨rows, k⟩ (names.map some)).rows = rows ++ expectedRows k names := by
  induction names with
  | nil =>
    intro rows k _
    rw [List.map_nil, runCreatesMysql, expectedRows, List.append_nil]
  | cons n ns ih =>
    intro rows k h
    have hn : n ≠ "" := h n (List.mem_cons_self n ns)
    rw [List.map_cons, runCreatesMysql, registerMysql_valid _ n none none hn]
    rw [show ((((201 : Nat), some (⟨k, n, none, none⟩ : MysqlCreateResponse)),
        (⟨rows ++ [⟨k, n, jsOr none "", none⟩], k + 1⟩ : MyTable)).2)
      = (⟨rows ++ [⟨k, n, "", none⟩], k + 1⟩ : MyTable) from rfl]
    rw [ih _ _ (fun q hq => h q (List.mem_cons_of_mem _ hq))]
    rw [expectedRows, List.append_assoc]
    rfl

/-! ### Claim theorems -/

/-- Claim C1, counterexample: the file backend derives the id from
Date.now(), so two successful creates during the same millisecond
(Date.now() = 5 both times) each return 201 and both items get id "5":
the second create's id does not differ from the previously created
item's id. -/
theorem create_ids_same_millis_cex :
    (registerFile [] 5 (some "A") none none).1.1 = 201 ∧
    ((registerFile [] 5 (some "A") none none).1.2.map Item.id) = some "5" ∧
    (registerFile (registerFile [] 5 (some "A") none none).2 5 (some "B") none none).1.1 = 201 ∧
    ((registerFile (registerFile [] 5 (some "A") none none).2 5
        (some "B") none none).1.2.map Item.id) = some "5" := by
  decide

/-- Claim C1, amended: in the file backend, a sequence of successful
creates with valid names yields pairwise distinct ids provided the
Date.now() values observed by the calls are pairwise distinct (as decimal
strings); creates in the same millisecond can collide. The MySQL
backend's auto-increment ids are pairwise distinct unconditionally. -/
theorem create_ids_unique (reqs : List CreateReq) (ns : List (Option String))
    (hvalid : ∀ r ∈ reqs, jsTrim r.name ≠ "")
    (hnow : (reqs.map fun r => toString r.now).Nodup) :
    ((runCreatesFile [] reqs).map Item.id).Nodup ∧
    ((runCreatesMysql ⟨[], 0⟩ ns).rows.map Row.id).Nodup := by
  constructor
  · rw [runCreatesFile_eq reqs [] hvalid, List.nil_append, List.map_map]
    exact hnow
  · exact runCreatesMysql_inv ns ⟨[], 0⟩ (by intro r hr; cases hr) List.nodup_nil

/-- Witness for create_ids_unique at two concrete creates per backend. -/
theorem create_ids_unique_witness :
    ((runCreatesFile [] [⟨5, "A"⟩, ⟨6, "B"⟩]).map Item.id).Nodup ∧
    ((runCreatesMysql ⟨[], 0⟩ [some "C", some "D"]).rows.map Row.id).Nodup :=
  create_ids_unique [⟨5, "A"⟩, ⟨6, "B"⟩] [some "C", some "D"] (by decide) (by decide)

/-- Claim C4, counterexample: the MySQL backend's register validation only
tests JS truthiness (no trim), so Create with the whitespace-only name
"   " succeeds with 201 and the record is persisted. -/
theorem create_whitespace_name_cex :
    (registerMysql ⟨[], 0⟩ (some "   ") none none).1.1 = 201 ∧
    (registerMysql ⟨[], 0⟩ (some "   ") none none).2.rows
      = [⟨0, "   ", "", none⟩] := by
  decide

/-- Claim C4, amended: the file backend rejects an absent, empty, or
whitespace-only inventory_name with 400 and persists nothing; the MySQL
backend rejects only an absent or empty name with 400 (persisting
nothing), while any non-empty name — including a whitespace-only one —
is accepted with 201 and a record is persisted. -/
theorem create_name_validation (db : List Item) (now : Nat)
    (name? desc? file? : Option String) (t : MyTable) (s : String)
    (d f : Option String)
    (hbad : strFalsy name? = true ∨ jsTrim (name?.getD "") = "")
    (hs : s ≠ "") :
    registerFile db now name? desc? file? = ((400, none), db) ∧
    registerMysql t none d f = ((400, none), t) ∧
    registerMysql t (some "") d f = ((400, none), t) ∧
    (registerMysql t (some s) d f).1.1 = 201 ∧
    (registerMysql t (some s) d f).2.rows.length = t.rows.length + 1 := by
  refine ⟨registerFile_invalid db now name? desc? file? hbad, ?_, ?_, ?_, ?_⟩
  · rw [registerMysql, if_pos (show strFalsy none = true from rfl)]
  · rw [registerMysql, if_pos (show strFalsy (some "") = true from rfl)]
  · rw [registerMysql_valid t s d f hs]
  · rw [registerMysql_valid t s d f hs]
    simp

/-- Witness for create_name_validation: rejected whitespace-only name in
the file backend, rejected absent and empty names in the MySQL backend,
accepted whitespace-only name in the MySQL backend. -/
theorem create_name_validation_witness :
    registerFile [] 1 (some " ") none none = ((400, none), []) ∧
    registerMysql ⟨[], 0⟩ none none none = ((400, none), ⟨[], 0⟩) ∧
    registerMysql ⟨[], 0⟩ (some "") none none = ((400, none), ⟨[], 0⟩) ∧
    (registerMysql ⟨[], 0⟩ (some "   ") none none).1.1 = 201 ∧
    (registerMysql ⟨[], 0⟩ (some "   ") none none).2.rows.length
      = (⟨[], 0⟩ : MyTable).rows.length + 1 :=
  create_name_validation [] 1 (some " ") none none ⟨[], 0⟩ "   " none none
    (Or.inr (by decide)) (by decide)

/-- Claim C5, confirmed (under the spec's unique-id invariant for the file
backend): deleting an existing item answers 200; a subsequent get of the
same id answers 404, and a second delete of the same id answers 404 and
leaves the state unchanged — in both backends. -/
theorem delete_then_not_found (db : List Item) (i : String) (it : Item)
    (t : MyTable) (j : Nat) (r : Row)
    (hnd : (db.map Item.id).Nodup)
    (hfind : findItem db i = some it)
    (hrow : findRow t.rows j = some r) :
    (deleteFile db i).1.1 = 200 ∧
    getInventoryFile (deleteFile db i).2 i = (404, none) ∧
    deleteFile (deleteFile db i).2 i = ((404, none), (deleteFile db i).2) ∧
    (deleteMysql t j).1.1 = 200 ∧
    getInventoryMysql (deleteMysql t j).2 j = (404, none) ∧
    deleteMysql (deleteMysql t j).2 j = ((404, none), (deleteMysql t j).2) := by
  have hdel : deleteFile db i
      = ((200, some ("Item with id " ++ i ++ " deleted")), deleteFirst db i) := by
    rw [deleteFile, hfind]
  have hgone : findItem (deleteFirst db i) i = none := findItem_deleteFirst db i hnd
  have hdelM : deleteMysql t j
      = ((200, some "Deleted"), { t with rows := removeRows t.rows j }) := by
    rw [deleteMysql, hrow]
  have hgoneM : findRow (removeRows t.rows j) j = none := findRow_removeRows t.rows j
  refine ⟨by rw [hdel], ?_, ?_, by rw [hdelM], ?_, ?_⟩
  · rw [hdel]
    show getInventoryFile (deleteFirst db i) i = (404, none)
    rw [getInventoryFile, hgone]
  · rw [hdel]
    show deleteFile (deleteFirst db i) i = ((404, none), deleteFirst db i)
    rw [deleteFile, hgone]
  · rw [hdelM]
    show getInventoryMysql { t with rows := removeRows t.rows j } j = (404, none)
    rw [getInventoryMysql]
    rw [show ({ t with rows := removeRows t.rows j } : MyTable).rows
      = removeRows t.rows j from rfl, hgoneM]
  · rw [hdelM]
    show deleteMysql { t with rows := removeRows t.rows j } j
      = ((404, none), { t with rows := removeRows t.rows j })
    rw [deleteMysql]
    rw [show ({ t with rows := removeRows t.rows j } : MyTable).rows
      = removeRows t.rows j from rfl, hgoneM]

/-- Witness for delete_then_not_found at a one-item state per backend. -/
theorem delete_then_not_found_witness :
    (deleteFile [⟨"1", "Drill", "", none⟩] "1").1.1 = 200 ∧
    getInventoryFile (deleteFile [⟨"1", "Drill", "", none⟩] "1").2 "1" = (404, none) ∧
    deleteFile (deleteFile [⟨"1", "Drill", "", none⟩] "1").2 "1"
      = ((404, none), (deleteFile [⟨"1", "Drill", "", none⟩] "1").2) ∧
    (deleteMysql ⟨[⟨1, "D", "", none⟩], 2⟩ 1).1.1 = 200 ∧
    getInventoryMysql (deleteMysql ⟨[⟨1, "D", "", none⟩], 2⟩ 1).2 1 = (404, none) ∧
    deleteMysql (deleteMysql ⟨[⟨1, "D", "", none⟩], 2⟩ 1).2 1
      = ((404, none), (deleteMysql ⟨[⟨1, "D", "", none⟩], 2⟩ 1).2) :=
  delete_then_not_found [⟨"1", "Drill", "", none⟩] "1" ⟨"1", "Drill", "", none⟩
    ⟨[⟨1, "D", "", none⟩], 2⟩ 1 ⟨1, "D", "", none⟩ (by decide) (by decide) (by decide)

theorem findRow_unique (rows : List Row) (j : Nat) (row : Row)
    (hnd : (rows.map Row.id).Nodup) (hfind : findRow rows j = some row) :
    ∀ r ∈ rows, r.id = j → r = row := by
  induction rows with
  | nil => intro r hr; cases hr
  | cons x xs ih =>
    rw [List.map_cons, List.nodup_cons] at hnd
    intro r hr hrj
    rcases List.mem_cons.mp hr with h | h
    · subst h
      rw [findRow, if_pos hrj] at hfind
      exact Option.some_inj.mp hfind
    · by_cases hx : x.id = j
      · exfalso
        apply hnd.1
        rw [hx, ← hrj]
        exact List.mem_map_of_mem Row.id h
      · rw [findRow, if_neg hx] at hfind
        exact ih hnd.2 hfind r h hrj

theorem mysql_noop_rows (rows : List Row) (j : Nat) (row : Row)
    (huniq : ∀ r ∈ rows, r.id = j → r = row) :
    rows.map (fun r => if r.id = j
      then { r with inventory_name := row.inventory_name,
                    description := row.description }
      else r) = rows := by
  induction rows with
  | nil => rfl
  | cons x xs ih =>
    rw [List.map_cons]
    congr 1
    · by_cases hx : x.id = j
      · rw [if_pos hx, huniq x (List.mem_cons_self x xs) hx]
      · rw [if_neg hx]
    · exact ih (fun r hr => huniq r (List.mem_cons_of_mem _ hr))

/-- Claim C3, counterexample: in the MySQL backend, Update of an existing
row with neither field supplied answers 200 "Updated" (not 400) and leaves
the table unchanged — a silent no-op. -/
theorem update_no_fields_cex :
    (updateMysql ⟨[⟨1, "Drill", "old", none⟩], 2⟩ 1 none none).1
      = (200, some "Updated") ∧
    (updateMysql ⟨[⟨1, "Drill", "old", none⟩], 2⟩ 1 none none).2
      = ⟨[⟨1, "Drill", "old", none⟩], 2⟩ := by
  decide

/-- Claim C3, amended: when both name and description are omitted or empty,
the file backend fails the update of an existing item with 400 and leaves
the record unchanged, while the MySQL backend succeeds with 200 "Updated"
as a silent no-op, also leaving the record unchanged (stated under the
unique-id invariant for the table). -/
theorem update_no_fields (db : List Item) (i : String) (it : Item)
    (name? desc? : Option String) (t : MyTable) (j : Nat) (row : Row)
    (hfind : findItem db i = some it)
    (hname : strFalsy name? = true) (hdesc : strFalsy desc? = true)
    (hrow : findRow t.rows j = some row)
    (hnd : (t.rows.map Row.id).Nodup) :
    updateFile db i name? desc? = ((400, none), db) ∧
    updateMysql t j name? desc? = ((200, some "Updated"), t) := by
  constructor
  · simp only [updateFile, hfind]
    rw [if_pos (show (strFalsy name? && strFalsy desc?) = true by rw [hname, hdesc]; rfl)]
  · simp only [updateMysql, hrow]
    rw [jsOr_of_falsy name? row.inventory_name hname,
      jsOr_of_falsy desc? row.description hdesc,
      mysql_noop_rows t.rows j row (findRow_unique t.rows j row hnd hrow)]

/-- Witness for update_no_fields: name absent and description supplied but
empty, against one-record states in both backends. -/
theorem update_no_fields_witness :
    updateFile [⟨"1", "Drill", "old", none⟩] "1" none (some "")
      = ((400, none), [⟨"1", "Drill", "old", none⟩]) ∧
    updateMysql ⟨[⟨1, "Drill", "old", none⟩], 2⟩ 1 none (some "")
      = ((200, some "Updated"), ⟨[⟨1, "Drill", "old", none⟩], 2⟩) :=
  update_no_fields [⟨"1", "Drill", "old", none⟩] "1" ⟨"1", "Drill", "old", none⟩
    none (some "") ⟨[⟨1, "Drill", "old", none⟩], 2⟩ 1 ⟨1, "Drill", "old", none⟩
    (by decide) (by decide) (by decide) (by decide) (by decide)

/-- Every persisted item has a non-empty inventory_name. -/
def namesNonEmpty (db : List Item) : Prop := ∀ x ∈ db, x.inventory_name ≠ ""

/-- Claim C6, counterexample: the file backend's update validation only
rejects requests where BOTH fields are falsy, and the assignment step only
checks for undefined, so Update with inventory_name = "" and a non-empty
description answers 200 and stores an item whose inventory_name is
empty. -/
theorem empty_name_update_cex :
    (updateFile [⟨"1", "Drill", "", none⟩] "1" (some "") (some "x")).1.1 = 200 ∧
    (updateFile [⟨"1", "Drill", "", none⟩] "1" (some "") (some "x")).2
      = [⟨"1", "", "x", none⟩] := by
  decide

/-- Claim C6, amended: register, set-photo, delete and search preserve the
non-empty-inventory_name invariant of the file backend's collection, and
update preserves it provided the supplied inventory_name, if present, is
non-empty; supplying inventory_name = "" together with a non-empty
description stores an item with an empty name. -/
theorem nonempty_name_preservation (db : List Item) (now : Nat)
    (rn? desc? file? inc : Option String) (i : String) (name? : Option String)
    (h : namesNonEmpty db)
    (hname : name? = none ∨ ∃ n, name? = some n ∧ n ≠ "") :
    namesNonEmpty (registerFile db now rn? desc? file?).2 ∧
    namesNonEmpty (updateFile db i name? desc?).2 ∧
    namesNonEmpty (setPhotoFile db i file?).2 ∧
    namesNonEmpty (deleteFile db i).2 ∧
    namesNonEmpty (searchFile db i inc).2 := by
  refine ⟨?_, ?_, ?_, ?_, ?_⟩
  · by_cases hc : (strFalsy rn? || jsTrim (rn?.getD "") == "") = true
    · rw [registerFile, if_pos hc]; exact h
    · rw [registerFile, if_neg hc]
      intro x hx
      rcases List.mem_append.mp hx with hx | hx
      · exact h x hx
      · rcases List.mem_singleton.mp hx with rfl
        show rn?.getD "" ≠ ""
        intro h0
        exact hc (by rw [h0, jsTrim_empty]; simp)
  · cases hfind : findItem db i with
    | none => simp only [updateFile, hfind]; exact h
    | some it =>
      simp only [updateFile, hfind]
      by_cases hval : (strFalsy name? && strFalsy desc?) = true
      · rw [if_pos hval]; exact h
      · rw [if_neg hval]
        show ∀ x ∈ updateAt db i (applyUpd name? desc?), x.inventory_name ≠ ""
        refine updateAt_pres _ db i _ ?_ h
        intro x hxP
        rcases hname with rfl | ⟨n, rfl, hn⟩
        · cases desc? with
          | none => exact hxP
          | some d => exact hxP
        · cases desc? with
          | none => exact hn
          | some d => exact hn
  · cases hfind : findItem db i with
    | none => simp only [setPhotoFile, hfind]; exact h
    | some it =>
      cases file? with
      | none => simp only [setPhotoFile, hfind]; exact h
      | some f =>
        simp only [setPhotoFile, hfind]
        show ∀ x ∈ updateAt db i (fun x => { x with photo := some f }), x.inventory_name ≠ ""
        exact updateAt_pres _ db i _ (fun x hx => hx) h
  · cases hfind : findItem db i with
    | none => simp only [deleteFile, hfind]; exact h
    | some it =>
      simp only [deleteFile, hfind]
      intro x hx
      exact h x (deleteFirst_subset db i x hx)
  · cases hfind : findItem db i with
    | none => simp only [searchFile, hfind]; exact h
    | some it => simp only [searchFile, hfind]; exact h

/-- Witness for nonempty_name_preservation on a concrete one-item state. -/
theorem nonempty_name_preservation_witness :
    namesNonEmpty (registerFile [⟨"1", "Drill", "", none⟩] 7 (some "Saw") (some "d") (some "p.jpg")).2 ∧
    namesNonEmpty (updateFile [⟨"1", "Drill", "", none⟩] "1" (some "Saw2") (some "d")).2 ∧
    namesNonEmpty (setPhotoFile [⟨"1", "Drill", "", none⟩] "1" (some "p.jpg")).2 ∧
    namesNonEmpty (deleteFile [⟨"1", "Drill", "", none⟩] "1").2 ∧
    namesNonEmpty (searchFile [⟨"1", "Drill", "", none⟩] "1" (some "1")).2 :=
  nonempty_name_preservation [⟨"1", "Drill", "", none⟩] 7 (some "Saw") (some "d")
    (some "p.jpg") (some "1") "1" (some "Saw2")
    (show ∀ x ∈ [(⟨"1", "Drill", "", none⟩ : Item)], x.inventory_name ≠ "" by decide)
    (Or.inr ⟨"Saw2", rfl, by decide⟩)

theorem map_field_updateMysql {β : Type} (rows : List Row) (j : Nat) (g : Row → β)
    (nn nd : String)
    (hg : ∀ r : Row, g { r with inventory_name := nn, description := nd } = g r) :
    (rows.map (fun r => if r.id = j
        then { r with inventory_name := nn, description := nd } else r)).map g
      = rows.map g := by
  induction rows with
  | nil => rfl
  | cons x xs ih =>
    rw [List.map_cons, List.map_cons, List.map_cons, ih]
    by_cases hx : x.id = j
    · rw [if_pos hx, hg]
    · rw [if_neg hx]

/-- Claim C2, counterexample: in the MySQL backend, Update of a row whose
description is "old" with an explicitly supplied empty-string description
answers 200 but keeps description "old" — the explicit empty string
produces exactly the same state as omitting the field, so it is not
treated as a real update. -/
theorem update_empty_desc_cex :
    (updateMysql ⟨[⟨1, "Drill", "old", none⟩], 2⟩ 1 (some "Drill2") (some "")).1.1 = 200 ∧
    (updateMysql ⟨[⟨1, "Drill", "old", none⟩], 2⟩ 1 (some "Drill2") (some "")).2
      = ⟨[⟨1, "Drill2", "old", none⟩], 2⟩ ∧
    (updateMysql ⟨[⟨1, "Drill", "old", none⟩], 2⟩ 1 (some "Drill2") (some "")).2
      = (updateMysql ⟨[⟨1, "Drill", "old", none⟩], 2⟩ 1 (some "Drill2") none).2 := by
  decide

/-- Claim C2, amended: in the file backend, an update that passes validation
writes exactly the fields whose keys were present (an explicit empty string
is written), leaves id and photo untouched, stores the updated item under
the same id, and leaves every other item in place. In the MySQL backend,
id and photo columns are never changed by Update, but an explicitly
supplied empty string behaves exactly like an absent field (the previous
value is kept). -/
theorem update_partial_fields (db : List Item) (i : String) (it : Item)
    (name? desc? : Option String) (t : MyTable) (j : Nat) (row : Row)
    (hfind : findItem db i = some it)
    (hval : ¬(strFalsy name? = true ∧ strFalsy desc? = true))
    (hrow : findRow t.rows j = some row) :
    (updateFile db i name? desc?).1 = (200, some (applyUpd name? desc? it)) ∧
    (applyUpd name? desc? it).id = it.id ∧
    (applyUpd name? desc? it).photo = it.photo ∧
    (applyUpd name? desc? it).inventory_name
      = (match name? with | some n => n | none => it.inventory_name) ∧
    (applyUpd name? desc? it).description
      = (match desc? with | some d => d | none => it.description) ∧
    findItem (updateFile db i name? desc?).2 i = some (applyUpd name? desc? it) ∧
    (∀ x ∈ db, x.id ≠ i → x ∈ (updateFile db i name? desc?).2) ∧
    (updateMysql t j name? desc?).2.rows.map Row.id = t.rows.map Row.id ∧
    (updateMysql t j name? desc?).2.rows.map Row.photo = t.rows.map Row.photo ∧
    updateMysql t j name? (some "") = updateMysql t j name? none := by
  have hcond : ¬((strFalsy name? && strFalsy desc?) = true) := by
    rw [Bool.and_eq_true]; exact hval
  have hupd : updateFile db i name? desc?
      = ((200, some (applyUpd name? desc? it)), updateAt db i (applyUpd name? desc?)) := by
    simp only [updateFile, hfind]
    rw [if_neg hcond]
  have hfid : ∀ x : Item, (applyUpd name? desc? x).id = x.id := by
    intro x; cases name? <;> cases desc? <;> rfl
  refine ⟨by rw [hupd], ?_, ?_, ?_, ?_, ?_, ?_, ?_, ?_, ?_⟩
  · exact hfid it
  · cases name? <;> cases desc? <;> rfl
  · cases name? <;> cases desc? <;> rfl
  · cases name? <;> cases desc? <;> rfl
  · rw [hupd]
    show findItem (updateAt db i (applyUpd name? desc?)) i = some (applyUpd name? desc? it)
    rw [findItem_updateAt db i _ hfid, hfind]
    rfl
  · intro x hx hne
    rw [hupd]
    show x ∈ updateAt db i (applyUpd name? desc?)
    exact mem_updateAt_of_ne db i _ x hx hne
  · simp only [updateMysql, hrow]
    show (t.rows.map (fun r => if r.id = j
        then { r with inventory_name := jsOr name? row.inventory_name,
                      description := jsOr desc? row.description } else r)).map Row.id
      = t.rows.map Row.id
    exact map_field_updateMysql t.rows j Row.id _ _ (fun r => rfl)
  · simp only [updateMysql, hrow]
    show (t.rows.map (fun r => if r.id = j
        then { r with inventory_name := jsOr name? row.inventory_name,
                      description := jsOr desc? row.description } else r)).map Row.photo
      = t.rows.map Row.photo
    exact map_field_updateMysql t.rows j Row.photo _ _ (fun r => rfl)
  · simp only [updateMysql, hrow]
    rfl

/-- Witness for update_partial_fields: Update(id, only description = "x")
against one-record states in both backends. -/
theorem update_partial_fields_witness :
    (updateFile [⟨"1", "Drill", "old", some "p.jpg"⟩] "1" none (some "x")).1
      = (200, some (applyUpd none (some "x") ⟨"1", "Drill", "old", some "p.jpg"⟩)) ∧
    (applyUpd none (some "x") ⟨"1", "Drill", "old", some "p.jpg"⟩).id
      = (⟨"1", "Drill", "old", some "p.jpg"⟩ : Item).id ∧
    (applyUpd none (some "x") ⟨"1", "Drill", "old", some "p.jpg"⟩).photo
      = (⟨"1", "Drill", "old", some "p.jpg"⟩ : Item).photo ∧
    (applyUpd none (some "x") ⟨"1", "Drill", "old", some "p.jpg"⟩).inventory_name
      = (match (none : Option String) with
         | some n => n
         | none => (⟨"1", "Drill", "old", some "p.jpg"⟩ : Item).inventory_name) ∧
    (applyUpd none (some "x") ⟨"1", "Drill", "old", some "p.jpg"⟩).description
      = (match (some "x" : Option String) with
         | some d => d
         | none => (⟨"1", "Drill", "old", some "p.jpg"⟩ : Item).description) ∧
    findItem (updateFile [⟨"1", "Drill", "old", some "p.jpg"⟩] "1" none (some "x")).2 "1"
      = some (applyUpd none (some "x") ⟨"1", "Drill", "old", some "p.jpg"⟩) ∧
    (∀ x ∈ [(⟨"1", "Drill", "old", some "p.jpg"⟩ : Item)], x.id ≠ "1" →
      x ∈ (updateFile [⟨"1", "Drill", "old", some "p.jpg"⟩] "1" none (some "x")).2) ∧
    (updateMysql ⟨[⟨1, "Drill", "old", some "q.jpg"⟩], 2⟩ 1 none (some "x")).2.rows.map Row.id
      = [(⟨1, "Drill", "old", some "q.jpg"⟩ : Row)].map Row.id ∧
    (updateMysql ⟨[⟨1, "Drill", "old", some "q.jpg"⟩], 2⟩ 1 none (some "x")).2.rows.map Row.photo
      = [(⟨1, "Drill", "old", some "q.jpg"⟩ : Row)].map Row.photo ∧
    updateMysql ⟨[⟨1, "Drill", "old", some "q.jpg"⟩], 2⟩ 1 none (some "")
      = updateMysql ⟨[⟨1, "Drill", "old", some "q.jpg"⟩], 2⟩ 1 none none :=
  update_partial_fields [⟨"1", "Drill", "old", some "p.jpg"⟩] "1"
    ⟨"1", "Drill", "old", some "p.jpg"⟩ none (some "x")
    ⟨[⟨1, "Drill", "old", some "q.jpg"⟩], 2⟩ 1 ⟨1, "Drill", "old", some "q.jpg"⟩
    (by decide) (by decide) (by decide)

/-- Claim C7, counterexample: the MySQL backend's 201 response object
reuses the raw body description, so creating with the description absent
returns an object whose description field is absent (undefined/omitted in
the JSON), not the empty string — even though the inserted row's
description is defaulted to "". -/
theorem create_response_desc_cex :
    (registerMysql ⟨[], 0⟩ (some "Drill") none none).1.2
      = some ⟨0, "Drill", none, none⟩ ∧
    (registerMysql ⟨[], 0⟩ (some "Drill") none none).2.rows
      = [⟨0, "Drill", "", none⟩] := by
  decide

/-- Claim C7, amended: the file backend's 201 response is fully populated
(assigned id, given name, description defaulted to "" when absent, photo
null when no file), and the stored item equals the returned one. The MySQL
backend stores the row with description defaulted to "", but its 201
response echoes the raw description argument, which is absent — not "" —
when the argument was omitted. -/
theorem create_response_populated (db : List Item) (now : Nat) (name : String)
    (desc? file? : Option String) (t : MyTable) (mname : String)
    (hname : jsTrim name ≠ "") (hmname : mname ≠ "") :
    (registerFile db now (some name) desc? file?).1
      = (201, some ⟨toString now, name, jsOr desc? "", file?⟩) ∧
    (registerFile db now (some name) none none).1
      = (201, some ⟨toString now, name, "", none⟩) ∧
    (registerFile db now (some name) desc? file?).2
      = db ++ [⟨toString now, name, jsOr desc? "", file?⟩] ∧
    (registerMysql t (some mname) desc? file?).1
      = (201, some ⟨t.nextId, mname, desc?, file?⟩) ∧
    (registerMysql t (some mname) desc? file?).2.rows
      = t.rows ++ [⟨t.nextId, mname, jsOr desc? "", file?⟩] := by
  refine ⟨?_, ?_, ?_, ?_, ?_⟩
  · rw [registerFile_valid db now name desc? file? hname]
  · rw [registerFile_valid db now name none none hname]
    rfl
  · rw [registerFile_valid db now name desc? file? hname]
  · rw [registerMysql_valid t mname desc? file? hmname]
  · rw [registerMysql_valid t mname desc? file? hmname]

/-- Witness for create_response_populated: POST /register with
inventory_name "Drill" and no description or photo. -/
theorem create_response_populated_witness :
    (registerFile [] 7 (some "Drill") none none).1
      = (201, some ⟨toString 7, "Drill", jsOr none "", none⟩) ∧
    (registerFile [] 7 (some "Drill") none none).1
      = (201, some ⟨toString 7, "Drill", "", none⟩) ∧
    (registerFile [] 7 (some "Drill") none none).2
      = [] ++ [⟨toString 7, "Drill", jsOr none "", none⟩] ∧
    (registerMysql ⟨[], 0⟩ (some "Drill") none none).1
      = (201, some ⟨(⟨[], 0⟩ : MyTable).nextId, "Drill", none, none⟩) ∧
    (registerMysql ⟨[], 0⟩ (some "Drill") none none).2.rows
      = (⟨[], 0⟩ : MyTable).rows ++ [⟨(⟨[], 0⟩ : MyTable).nextId, "Drill", jsOr none "", none⟩] :=
  create_response_populated [] 7 "Drill" none none ⟨[], 0⟩ "Drill"
    (by decide) (by decide)

theorem expectedRows_length (names : List String) :
    ∀ k : Nat, (expectedRows k names).length = names.length := by
  induction names with
  | nil => intro k; rfl
  | cons n ns ih => intro k; rw [expectedRows, List.length_cons, ih, List.length_cons]

/-- Claim C8, confirmed: listing an empty collection answers 200 with an
empty sequence (never an error), and after N successful creates starting
from the empty state, List answers 200 with exactly those N items in
creation order — in both backends. -/
theorem list_insertion_order (reqs : List CreateReq) (names : List String)
    (hvalid : ∀ r ∈ reqs, jsTrim r.name ≠ "")
    (hnames : ∀ n ∈ names, n ≠ "") :
    listFile [] = (200, []) ∧
    listMysql ⟨[], 0⟩ = (200, []) ∧
    listFile (runCreatesFile [] reqs) = (200, reqs.map mkFileItem) ∧
    (listFile (runCreatesFile [] reqs)).2.length = reqs.length ∧
    listMysql (runCreatesMysql ⟨[], 0⟩ (names.map some)) = (200, expectedRows 0 names) ∧
    (listMysql (runCreatesMysql ⟨[], 0⟩ (names.map some))).2.length = names.length := by
  have hf : runCreatesFile [] reqs = reqs.map mkFileItem := by
    rw [runCreatesFile_eq reqs [] hvalid, List.nil_append]
  have hm : (runCreatesMysql ⟨[], 0⟩ (names.map some)).rows = expectedRows 0 names := by
    rw [runCreatesMysql_rows names [] 0 hnames, List.nil_append]
  refine ⟨rfl, rfl, ?_, ?_, ?_, ?_⟩
  · rw [listFile, hf]
  · show (runCreatesFile [] reqs).length = reqs.length
    rw [hf, List.length_map]
  · rw [listMysql, hm]
  · show (runCreatesMysql ⟨[], 0⟩ (names.map some)).rows.length = names.length
    rw [hm, expectedRows_length]

/-- Witness for list_insertion_order with two creates per backend. -/
theorem list_insertion_order_witness :
    listFile [] = (200, []) ∧
    listMysql ⟨[], 0⟩ = (200, []) ∧
    listFile (runCreatesFile [] [⟨5, "A"⟩, ⟨6, "B"⟩])
      = (200, [⟨5, "A"⟩, ⟨6, "B"⟩].map mkFileItem) ∧
    (listFile (runCreatesFile [] [⟨5, "A"⟩, ⟨6, "B"⟩])).2.length
      = [(⟨5, "A"⟩ : CreateReq), ⟨6, "B"⟩].length ∧
    listMysql (runCreatesMysql ⟨[], 0⟩ (["C", "D"].map some))
      = (200, expectedRows 0 ["C", "D"]) ∧
    (listMysql (runCreatesMysql ⟨[], 0⟩ (["C", "D"].map some))).2.length
      = ["C", "D"].length :=
  list_insertion_order [⟨5, "A"⟩, ⟨6, "B"⟩] ["C", "D"] (by decide) (by decide)

/-- Claim C9, confirmed: GET /inventory/:id/photo answers 404 exactly when
no item matches the id, or the matching item's photo reference is falsy
(null or empty), or the referenced blob is missing from the photo store;
otherwise it answers 200 with the blob's bytes — in both backends. -/
theorem photo_404_characterization (db : List Item) (t : MyTable)
    (store : String → Option (List Nat)) (i : String) (j : Nat) :
    ((getPhotoFile db store i).1 = 404 ↔
      ¬∃ it, findItem db i = some it ∧ truthyPhoto it.photo = true ∧
        ∃ b, store (it.photo.getD "") = some b) ∧
    (∀ it b, findItem db i = some it → truthyPhoto it.photo = true →
      store (it.photo.getD "") = some b → getPhotoFile db store i = (200, some b)) ∧
    ((getPhotoMysql t store j).1 = 404 ↔
      ¬∃ r, findRow t.rows j = some r ∧ truthyPhoto r.photo = true ∧
        ∃ b, store (r.photo.getD "") = some b) ∧
    (∀ r b, findRow t.rows j = some r → truthyPhoto r.photo = true →
      store (r.photo.getD "") = some b → getPhotoMysql t store j = (200, some b)) := by
  have hfile : ∀ it b, findItem db i = some it → truthyPhoto it.photo = true →
      store (it.photo.getD "") = some b → getPhotoFile db store i = (200, some b) := by
    intro it b h1 h2 h3
    simp only [getPhotoFile, h1, if_pos h2, h3]
  have hmy : ∀ r b, findRow t.rows j = some r → truthyPhoto r.photo = true →
      store (r.photo.getD "") = some b → getPhotoMysql t store j = (200, some b) := by
    intro r b h1 h2 h3
    simp only [getPhotoMysql, h1, if_pos h2, h3]
  refine ⟨⟨?_, ?_⟩, hfile, ⟨?_, ?_⟩, hmy⟩
  · rintro h404 ⟨it, h1, h2, b, h3⟩
    rw [hfile it b h1 h2 h3] at h404
    exact (by decide : ¬((200 : Nat) = 404)) h404
  · intro hno
    cases h1 : findItem db i with
    | none => simp only [getPhotoFile, h1]
    | some it =>
      by_cases h2 : truthyPhoto it.photo = true
      · cases h3 : store (it.photo.getD "") with
        | none => simp only [getPhotoFile, h1, if_pos h2, h3]
        | some b => exact absurd ⟨it, h1, h2, b, h3⟩ hno
      · simp only [getPhotoFile, h1, if_neg h2]
  · rintro h404 ⟨r, h1, h2, b, h3⟩
    rw [hmy r b h1 h2 h3] at h404
    exact (by decide : ¬((200 : Nat) = 404)) h404
  · intro hno
    cases h1 : findRow t.rows j with
    | none => simp only [getPhotoMysql, h1]
    | some r =>
      by_cases h2 : truthyPhoto r.photo = true
      · cases h3 : store (r.photo.getD "") with
        | none => simp only [getPhotoMysql, h1, if_pos h2, h3]
        | some b => exact absurd ⟨r, h1, h2, b, h3⟩ hno
      · simp only [getPhotoMysql, h1, if_neg h2]

/-- Witness for photo_404_characterization: an item whose photo "p.jpg" is
present in the store is served with 200 and the stored bytes. -/
theorem photo_404_characterization_witness :
    getPhotoFile [⟨"1", "Drill", "", some "p.jpg"⟩]
      (fun s => if s = "p.jpg" then some [7, 8] else none) "1" = (200, some [7, 8]) :=
  (photo_404_characterization [⟨"1", "Drill", "", some "p.jpg"⟩] ⟨[], 0⟩
      (fun s => if s = "p.jpg" then some [7, 8] else none) "1" 0).2.1
    ⟨"1", "Drill", "", some "p.jpg"⟩ [7, 8] (by decide) (by decide) (by decide)

/-- Claim C10, confirmed: POST /search returns the persisted collection
unchanged (the handler never saves), and when the item is found and
includePhoto is truthy the response carries the item with the photo-path
line appended to its description — an in-memory copy only. -/
theorem search_no_mutation (db : List Item) (i : String) (inc : Option String) :
    (searchFile db i inc).2 = db ∧
    (∀ it, findItem db i = some it → strFalsy inc = false →
      (searchFile db i inc).1 = (200, some { it with
        description := it.description ++ "\nPhoto: /inventory/" ++ i ++ "/photo" })) := by
  constructor
  · cases h : findItem db i with
    | none => simp [searchFile, h]
    | some it => simp [searchFile, h]
  · intro it hit hinc
    simp [searchFile, hit, hinc]

/-- Witness for search_no_mutation: search with includePhoto = "1" on a
one-item collection leaves the collection unchanged and annotates only
the response. -/
theorem search_no_mutation_witness :
    (searchFile [⟨"5", "Drill", "d", none⟩] "5" (some "1")).2
      = [⟨"5", "Drill", "d", none⟩] ∧
    (searchFile [⟨"5", "Drill", "d", none⟩] "5" (some "1")).1
      = (200, some { (⟨"5", "Drill", "d", none⟩ : Item) with
          description := (⟨"5", "Drill", "d", none⟩ : Item).description
            ++ "\nPhoto: /inventory/" ++ "5" ++ "/photo" }) :=
  ⟨(search_no_mutation [⟨"5", "Drill", "d", none⟩] "5" (some "1")).1,
   (search_no_mutation [⟨"5", "Drill", "d", none⟩] "5" (some "1")).2
     ⟨"5", "Drill", "d", none⟩ (by decide) (by decide)⟩
